import Mathlib

/-!
Verification development for `get_new_dependencies.py`, a single-run CLI tool
that queries a dependency-metadata API, filters by creation date and branch,
paginates, normalizes records, and writes JSON/CSV output files.

The Python source is shallowly embedded below.  Python strings are `String`
(with character-level helpers mirroring Python `str` semantics where the
Lean library differs), dictionaries with possibly-missing keys are structures
of `Option` fields, `datetime` objects are a `Datetime` structure whose
`tz` field is `none` for naive values and `some offsetMinutes` for aware
values, and the paginated HTTP endpoint is a list of per-page responses,
each either a payload or a transport/HTTP error.
-/

/-- Python truthiness for an optional string: `None` and `""` are falsy.
Used for `if branch:` and `if not next_page_id:` in the source. -/
def pyTruthy : Option String → Bool
  | none => false
  | some s => !s.isEmpty

/-- `listStarts pat l` is true when `pat` is an initial segment of `l`. -/
def listStarts : List Char → List Char → Bool
  | [], _ => true
  | _ :: _, [] => false
  | a :: as, b :: bs => a = b && listStarts as bs

/-- Python's `sub in s` on character lists: `pat` occurs contiguously in `l`. -/
def listHasSub (pat : List Char) : List Char → Bool
  | [] => listStarts pat []
  | l@(_ :: rest) => listStarts pat l || listHasSub pat rest

/-- Python's `'://' in s`: scan for the three-character separator. -/
def containsArrow : List Char → Bool
  | c1 :: c2 :: c3 :: rest =>
    (c1 = ':' && c2 = '/' && c3 = '/') || containsArrow (c2 :: c3 :: rest)
  | _ => false

/-- Python's `s.split('://')`: cut at every non-overlapping occurrence of
`://`, scanning left to right. -/
def splitOnArrow : List Char → List (List Char)
  | [] => [[]]
  | [c] => [[c]]
  | [c1, c2] => [[c1, c2]]
  | c1 :: c2 :: c3 :: rest =>
    if c1 = ':' ∧ c2 = '/' ∧ c3 = '/' then [] :: splitOnArrow rest
    else
      match splitOnArrow (c2 :: c3 :: rest) with
      | [] => [[c1]]
      | h :: t => (c1 :: h) :: t

/-- The package-name rewrite inside the normalization loop:
`if package_name and '://' in package_name: package_name = package_name.split('://')[-1]`. -/
def strip_pkg (pn : String) : String :=
  if (!pn.isEmpty && containsArrow pn.toList) = true then
    String.mk ((splitOnArrow pn.toList).getLastD [])
  else pn

/-- `spec.dependency_data` of a raw API object; keys may be missing. -/
structure DependencyData where
  package_name : Option String
  resolved_version : Option String
deriving DecidableEq

/-- `spec` of a raw API object. -/
structure SpecData where
  dependency_data : Option DependencyData
deriving DecidableEq

/-- `meta` of a raw API object. -/
structure ObjMeta where
  create_time : Option String
  name : Option String
deriving DecidableEq

/-- A raw object from the `objects` list of one API response page. -/
structure RawObj where
  spec : Option SpecData
  meta : Option ObjMeta
  uuid : Option String
deriving DecidableEq

/-- One normalized output record (`dependency_info` in the source).  The
`uuid` field is `Option String` because the source uses `obj.get('uuid')`
with no default, unlike the other fields which default to `''`. -/
structure DepRecord where
  package_name : String
  resolved_version : String
  created_date : String
  uuid : Option String
  name : String
deriving DecidableEq

/-- The per-object normalization in the pagination loop of
`get_new_dependencies`: chained `.get(..., {})` / `.get(..., '')` accesses,
the `://` suffix rewrite, and the `dependency_info` dictionary. -/
def normalize_dependency (obj : RawObj) : DepRecord :=
  let dep_data := obj.spec.bind SpecData.dependency_data
  let package_name := (dep_data.bind DependencyData.package_name).getD ""
  let resolved_version := (dep_data.bind DependencyData.resolved_version).getD ""
  let created_str := (obj.meta.bind ObjMeta.create_time).getD ""
  { package_name := strip_pkg package_name
    resolved_version := resolved_version
    created_date := created_str
    uuid := obj.uuid
    name := (obj.meta.bind ObjMeta.name).getD "" }

/-- The payload of one successful response page: the `objects` list and
`list.response.next_page_id` (absent on the final page). -/
structure Page where
  objects : List RawObj
  next_page_id : Option String
deriving DecidableEq

/-- The pagination loop of `get_new_dependencies`.  The first argument is
the sequence of responses the server returns (a payload or an error string
for a transport / non-2xx failure), the second is the cursor carried by the
next request (`none` on the first request), the third is the accumulator
`new_dependencies`.  Returns the final accumulator and the list of cursors
attached to the requests actually issued.  On an error the source prints a
diagnostic and `return []`, discarding the accumulator. -/
def fetchGo : List (Except String Page) → Option String → List DepRecord →
    List DepRecord × List (Option String)
  | [], _, acc => (acc, [])
  | Except.error _ :: _, cursor, _ => ([], [cursor])
  | Except.ok p :: rest, cursor, acc =>
    let acc2 := acc ++ p.objects.map normalize_dependency
    if pyTruthy p.next_page_id then
      let r := fetchGo rest p.next_page_id acc2
      (r.1, cursor :: r.2)
    else (acc2, [cursor])

/-- The list returned by `get_new_dependencies` for a given server response
sequence. -/
def get_new_dependencies (pages : List (Except String Page)) : List DepRecord :=
  (fetchGo pages none []).1

/-- The page cursors attached to the requests issued by the pagination loop
(`none` for the first request, the previous response's `next_page_id`
afterwards). -/
def issued_requests (pages : List (Except String Page)) : List (Option String) :=
  (fetchGo pages none []).2

/-- The CSV header row written by `write_csv_file` (the `csv` module ends
rows with CRLF). -/
def csv_header : String := "package_name,resolved_version,created_date,uuid,name\r\n"

/-- Python `csv` minimal quoting: a field is quoted when it contains the
delimiter, the quote character, or a line-terminator character. -/
def csv_quote_needed (s : String) : Bool :=
  s.toList.any (fun c => c = ',' || c = '"' || c = '\r' || c = '\n')

/-- One CSV field under minimal quoting with doubled inner quotes. -/
def csv_field (s : String) : String :=
  if csv_quote_needed s then
    "\"" ++ String.mk ((s.toList.map (fun c => if c = '"' then ['"', '"'] else [c])).flatten) ++ "\""
  else s

/-- One data row written by `csv.DictWriter.writerows`; a `None` value is
written as the empty string. -/
def csv_row (r : DepRecord) : String :=
  csv_field r.package_name ++ "," ++ csv_field r.resolved_version ++ "," ++
    csv_field r.created_date ++ "," ++ csv_field (r.uuid.getD "") ++ "," ++
    csv_field r.name ++ "\r\n"

/-- The full text written by `write_csv_file`: the empty-list branch writes
only the header; otherwise `DictWriter` writes the header and one row per
record in list order. -/
def write_csv_content (deps : List DepRecord) : String :=
  if deps.isEmpty then csv_header
  else csv_header ++ String.join (deps.map csv_row)

/-- Lowercase hex digit, as in Python's `\uXXXX` escapes. -/
def hexChar (n : Nat) : Char := Nat.digitChar (n % 16)

/-- A six-character `\uXXXX` escape for a code unit. -/
def uEscape (n : Nat) : List Char :=
  ['\\', 'u', hexChar (n / 4096), hexChar (n / 256 % 16), hexChar (n / 16 % 16), hexChar (n % 16)]

/-- `json.dump` escaping of one character with the default `ensure_ascii`:
quote and backslash get backslash escapes, printable ASCII passes through,
the usual control shorthands apply, and everything else becomes `\uXXXX`
(a surrogate pair beyond the BMP). -/
def json_escape_char (c : Char) : List Char :=
  if c = '"' then ['\\', '"']
  else if c = '\\' then ['\\', '\\']
  else if 32 ≤ c.toNat ∧ c.toNat ≤ 126 then [c]
  else if c = '\n' then ['\\', 'n']
  else if c = '\r' then ['\\', 'r']
  else if c = '\t' then ['\\', 't']
  else if c.toNat = 8 then ['\\', 'b']
  else if c.toNat = 12 then ['\\', 'f']
  else if c.toNat < 65536 then uEscape c.toNat
  else uEscape (55296 + (c.toNat - 65536) / 1024) ++ uEscape (56320 + (c.toNat - 65536) % 1024)

/-- A JSON string literal for `s`. -/
def json_string (s : String) : String :=
  "\"" ++ String.mk ((s.toList.map json_escape_char).flatten) ++ "\""

/-- A JSON value for an optional string: `null` when absent. -/
def json_opt_string : Option String → String
  | none => "null"
  | some s => json_string s

/-- One record as serialized by `json.dump(..., indent=2)` inside the
top-level array (keys in dictionary insertion order). -/
def json_record (r : DepRecord) : String :=
  "\x7b\n    \"package_name\": " ++ json_string r.package_name ++
    ",\n    \"resolved_version\": " ++ json_string r.resolved_version ++
    ",\n    \"created_date\": " ++ json_string r.created_date ++
    ",\n    \"uuid\": " ++ json_opt_string r.uuid ++
    ",\n    \"name\": " ++ json_string r.name ++ "\n  \x7d"

/-- The full text written by `json.dump(new_dependencies, f, indent=2)`:
the literal `[]` for an empty list, otherwise a pretty-printed array. -/
def write_json_content (deps : List DepRecord) : String :=
  if deps.isEmpty then "[]"
  else "[\n  " ++ String.intercalate ",\n  " (deps.map json_record) ++ "\n]"

/-- The date sanitization in `generate_output_filenames`:
`date_str.replace('-', '').replace('T', '_').replace(':', '').split('+')[0].split('Z')[0]`,
expressed over characters (single-character `replace` is a filter or map,
`split(sep)[0]` is the prefix before the first occurrence of `sep`). -/
def sanitize_date (s : String) : String :=
  String.mk (((((s.toList.filter (fun c => !(c = '-'))).map
      (fun c => if c = 'T' then '_' else c)).filter
      (fun c => !(c = ':'))).takeWhile (fun c => !(c = '+'))).takeWhile (fun c => !(c = 'Z')))

/-- The branch sanitization in `generate_output_filenames`:
`branch.replace('/', '_').replace('\\', '_').replace(' ', '_')`. -/
def sanitize_branch (b : String) : String :=
  String.mk (((b.toList.map (fun c => if c = '/' then '_' else c)).map
      (fun c => if c = '\\' then '_' else c)).map (fun c => if c = ' ' then '_' else c))

/-- `generate_output_filenames(project_uuid, date_str, branch)` from the
source: the sanitized raw date text, the optionally sanitized branch, and
the `.json` / `.csv` pair. -/
def generate_output_filenames (project_uuid date_str : String) (branch : Option String) :
    String × String :=
  let safe_date := sanitize_date date_str
  let base :=
    if pyTruthy branch then
      project_uuid ++ "_new_dependencies_" ++ safe_date ++ "_" ++ sanitize_branch (branch.getD "")
    else project_uuid ++ "_new_dependencies_" ++ safe_date
  (base ++ ".json", base ++ ".csv")

/-- Whether a character is an ASCII digit (regex `\d` in CPython strptime). -/
def isDig (c : Char) : Bool := 48 ≤ c.toNat && c.toNat ≤ 57

/-- Numeric value of an ASCII digit character. -/
def dv (c : Char) : Nat := c.toNat - 48

/-- CPython strptime `%Y`: exactly four digits. -/
def matchY : List Char → Option (Nat × List Char)
  | c1 :: c2 :: c3 :: c4 :: rest =>
    if isDig c1 && isDig c2 && isDig c3 && isDig c4 then
      some (((dv c1 * 10 + dv c2) * 10 + dv c3) * 10 + dv c4, rest)
    else none
  | _ => none

/-- CPython strptime `%m`, regex `(1[0-2]|0[1-9]|[1-9])`. -/
def matchMonth : List Char → Option (Nat × List Char)
  | c1 :: c2 :: rest =>
    if isDig c1 ∧ isDig c2 ∧ ((dv c1 = 1 ∧ dv c2 ≤ 2) ∨ (dv c1 = 0 ∧ 1 ≤ dv c2)) then
      some (dv c1 * 10 + dv c2, rest)
    else if isDig c1 ∧ 1 ≤ dv c1 then some (dv c1, c2 :: rest)
    else none
  | [c1] => if isDig c1 ∧ 1 ≤ dv c1 then some (dv c1, []) else none
  | [] => none

/-- CPython strptime `%d`, regex `(3[01]|[12]\d|0[1-9]|[1-9])`. -/
def matchDay : List Char → Option (Nat × List Char)
  | c1 :: c2 :: rest =>
    if isDig c1 ∧ isDig c2 ∧
        ((dv c1 = 3 ∧ dv c2 ≤ 1) ∨ (1 ≤ dv c1 ∧ dv c1 ≤ 2) ∨ (dv c1 = 0 ∧ 1 ≤ dv c2)) then
      some (dv c1 * 10 + dv c2, rest)
    else if isDig c1 ∧ 1 ≤ dv c1 then some (dv c1, c2 :: rest)
    else none
  | [c1] => if isDig c1 ∧ 1 ≤ dv c1 then some (dv c1, []) else none
  | [] => none

/-- CPython strptime `%H`, regex `(2[0-3]|[0-1]\d|\d)`. -/
def matchHour : List Char → Option (Nat × List Char)
  | c1 :: c2 :: rest =>
    if isDig c1 ∧ isDig c2 ∧ ((dv c1 = 2 ∧ dv c2 ≤ 3) ∨ dv c1 ≤ 1) then
      some (dv c1 * 10 + dv c2, rest)
    else if isDig c1 then some (dv c1, c2 :: rest)
    else none
  | [c1] => if isDig c1 then some (dv c1, []) else none
  | [] => none

/-- CPython strptime `%M`, regex `([0-5]\d|\d)`. -/
def matchMin : List Char → Option (Nat × List Char)
  | c1 :: c2 :: rest =>
    if isDig c1 ∧ isDig c2 ∧ dv c1 ≤ 5 then some (dv c1 * 10 + dv c2, rest)
    else if isDig c1 then some (dv c1, c2 :: rest)
    else none
  | [c1] => if isDig c1 then some (dv c1, []) else none
  | [] => none

/-- CPython strptime `%S`, regex `(6[0-1]|[0-5]\d|\d)` (leap seconds are
matched by the regex; `datetime` construction rejects them later). -/
def matchSec : List Char → Option (Nat × List Char)
  | c1 :: c2 :: rest =>
    if isDig c1 ∧ isDig c2 ∧ ((dv c1 = 6 ∧ dv c2 ≤ 1) ∨ dv c1 ≤ 5) then
      some (dv c1 * 10 + dv c2, rest)
    else if isDig c1 then some (dv c1, c2 :: rest)
    else none
  | [c1] => if isDig c1 then some (dv c1, []) else none
  | [] => none

/-- One item of a strptime format string: a literal character or one of the
directives used by the source's four formats. -/
inductive FmtItem where
  | lit (c : Char)
  | dY
  | dm
  | dd
  | dH
  | dM
  | dS
deriving DecidableEq

/-- Fields captured during a strptime match, with CPython's defaults
(year 1900, month 1, day 1, midnight). -/
structure StrpF where
  Y : Nat
  m : Nat
  d : Nat
  H : Nat
  M : Nat
  S : Nat
deriving DecidableEq

/-- Run a format item list over the input, requiring the whole input to be
consumed (CPython raises for unconverted data, which `parse_date` treats
the same as a non-match). -/
def strpItems : List FmtItem → List Char → StrpF → Option StrpF
  | [], [], f => some f
  | [], _ :: _, _ => none
  | FmtItem.lit c :: items, s, f =>
    match s with
    | c2 :: rest => if c2 = c then strpItems items rest f else none
    | [] => none
  | FmtItem.dY :: items, s, f =>
    match matchY s with
    | some (v, rest) => strpItems items rest { f with Y := v }
    | none => none
  | FmtItem.dm :: items, s, f =>
    match matchMonth s with
    | some (v, rest) => strpItems items rest { f with m := v }
    | none => none
  | FmtItem.dd :: items, s, f =>
    match matchDay s with
    | some (v, rest) => strpItems items rest { f with d := v }
    | none => none
  | FmtItem.dH :: items, s, f =>
    match matchHour s with
    | some (v, rest) => strpItems items rest { f with H := v }
    | none => none
  | FmtItem.dM :: items, s, f =>
    match matchMin s with
    | some (v, rest) => strpItems items rest { f with M := v }
    | none => none
  | FmtItem.dS :: items, s, f =>
    match matchSec s with
    | some (v, rest) => strpItems items rest { f with S := v }
    | none => none

/-- `"%Y-%m-%d"`. -/
def fmtDateOnly : List FmtItem :=
  [FmtItem.dY, FmtItem.lit '-', FmtItem.dm, FmtItem.lit '-', FmtItem.dd]

/-- `"%Y-%m-%dT%H:%M:%S"`. -/
def fmtDateTime : List FmtItem :=
  [FmtItem.dY, FmtItem.lit '-', FmtItem.dm, FmtItem.lit '-', FmtItem.dd, FmtItem.lit 'T',
    FmtItem.dH, FmtItem.lit ':', FmtItem.dM, FmtItem.lit ':', FmtItem.dS]

/-- `"%Y-%m-%dT%H:%M:%SZ"` (the `Z` is a literal). -/
def fmtDateTimeZ : List FmtItem := fmtDateTime ++ [FmtItem.lit 'Z']

/-- `"%Y-%m-%d %H:%M:%S"`. -/
def fmtDateSpace : List FmtItem :=
  [FmtItem.dY, FmtItem.lit '-', FmtItem.dm, FmtItem.lit '-', FmtItem.dd, FmtItem.lit ' ',
    FmtItem.dH, FmtItem.lit ':', FmtItem.dM, FmtItem.lit ':', FmtItem.dS]

/-- The `date_formats` list of `parse_date`, in source order. -/
def date_formats : List (List FmtItem) := [fmtDateOnly, fmtDateTime, fmtDateTimeZ, fmtDateSpace]

/-- A Python `datetime`: calendar fields plus `tzinfo` as an optional UTC
offset in minutes (`none` for a naive value, `some 0` for `timezone.utc`). -/
structure Datetime where
  year : Nat
  month : Nat
  day : Nat
  hour : Nat
  minute : Nat
  second : Nat
  tz : Option Int
deriving DecidableEq

/-- Gregorian leap year. -/
def isLeapYear (y : Nat) : Bool := (y % 4 = 0 && y % 100 ≠ 0) || y % 400 = 0

/-- Length of a month, used by `datetime` construction to validate the day. -/
def daysInMonthN (y m : Nat) : Nat :=
  if m = 2 then (if isLeapYear y then 29 else 28)
  else if m = 4 ∨ m = 6 ∨ m = 9 ∨ m = 11 then 30
  else 31

/-- `datetime.strptime(s, fmt)` for one of the source's formats: regex
match of every item over the whole string, then `datetime` construction,
which rejects year 0, out-of-range days for the month, and leap seconds.
The result is always naive (no format carries `%z`). -/
def tryParse (fmt : List FmtItem) (s : List Char) : Option Datetime :=
  match strpItems fmt s ⟨1900, 1, 1, 0, 0, 0⟩ with
  | some f =>
    if 1 ≤ f.Y ∧ 1 ≤ f.m ∧ f.m ≤ 12 ∧ 1 ≤ f.d ∧ f.d ≤ daysInMonthN f.Y f.m ∧
        f.H ≤ 23 ∧ f.M ≤ 59 ∧ f.S ≤ 59 then
      some ⟨f.Y, f.m, f.d, f.H, f.M, f.S, none⟩
    else none
  | none => none

/-- The `for fmt in date_formats` loop: first successful parse wins. -/
def firstParse : List (List FmtItem) → List Char → Option Datetime
  | [], _ => none
  | f :: fs, s =>
    match tryParse f s with
    | some dt => some dt
    | none => firstParse fs s

/-- `if dt.tzinfo is None: dt = dt.replace(tzinfo=timezone.utc)`. -/
def pyReplaceTzUTC (dt : Datetime) : Datetime :=
  if dt.tz = none then { dt with tz := some 0 } else dt

/-- The exact error text raised when no format matches. -/
def parse_date_error (s : String) : String :=
  "Unable to parse date: " ++ s ++
    ". Supported formats: YYYY-MM-DD, YYYY-MM-DDTHH:MM:SS, YYYY-MM-DDTHH:MM:SSZ"

/-- `parse_date` from the source: try the four formats in order, treat a
naive result as UTC, raise `ValueError` with the message above otherwise. -/
def parse_date (s : String) : Except String Datetime :=
  match firstParse date_formats s.toList with
  | some dt => Except.ok (pyReplaceTzUTC dt)
  | none => Except.error (parse_date_error s)

/-- Hinnant's civil-to-day-number conversion (days since 1970-01-01). -/
def daysFromCivil (y : Int) (m d : Nat) : Int :=
  let ya := if m ≤ 2 then y - 1 else y
  let era := ya.fdiv 400
  let yoe := (ya - era * 400).toNat
  let mp := (m + 9) % 12
  let doy := (153 * mp + 2) / 5 + d - 1
  let doe := yoe * 365 + yoe / 4 - yoe / 100 + doy
  era * 146097 + (doe : Int) - 719468

/-- Hinnant's day-number-to-civil conversion. -/
def civilFromDays (z0 : Int) : Int × Nat × Nat :=
  let z := z0 + 719468
  let era := z.fdiv 146097
  let doe := (z - era * 146097).toNat
  let yoe := (doe - doe / 1460 + doe / 36524 - doe / 146096) / 365
  let y := (yoe : Int) + era * 400
  let doy := doe - (365 * yoe + yoe / 4 - yoe / 100)
  let mp := (5 * doy + 2) / 153
  let d := doy - (153 * mp + 2) / 5 + 1
  let m := if mp < 10 then mp + 3 else mp - 9
  (if m ≤ 2 then y + 1 else y, m, d)

/-- The absolute instant of a datetime, in minutes since the epoch; for an
aware value the UTC offset is subtracted, a naive value is read as UTC. -/
def instantMinutes (dt : Datetime) : Int :=
  daysFromCivil (dt.year : Int) dt.month dt.day * 1440 +
    ((dt.hour * 60 + dt.minute : Nat) : Int) - dt.tz.getD 0

/-- The UTC wall-clock datetime at a given instant (minutes since epoch)
with the given seconds-within-minute. -/
def utcOfInstant (total : Int) (sec : Nat) : Datetime :=
  let days := total.fdiv 1440
  let rem := (total - days * 1440).toNat
  let c := civilFromDays days
  ⟨c.1.toNat, c.2.1, c.2.2, rem / 60, rem % 60, sec, some 0⟩

/-- `date_obj.astimezone(timezone.utc)` for aware values; the source only
calls it under an `is not None` guard, and a naive value is left alone. -/
def astimezoneUTC (dt : Datetime) : Datetime :=
  match dt.tz with
  | none => dt
  | some _ => utcOfInstant (instantMinutes dt) dt.second

/-- Four zero-padded digit characters (`%Y` in strftime, years ≤ 9999). -/
def digits4 (n : Nat) : List Char :=
  [Nat.digitChar (n / 1000 % 10), Nat.digitChar (n / 100 % 10),
    Nat.digitChar (n / 10 % 10), Nat.digitChar (n % 10)]

/-- Two zero-padded digit characters (`%m`, `%d`, ... in strftime). -/
def digits2 (n : Nat) : List Char := [Nat.digitChar (n / 10 % 10), Nat.digitChar (n % 10)]

/-- `date_obj.strftime("%Y-%m-%d")`. -/
def strftimeYmd (dt : Datetime) : String :=
  String.mk (digits4 dt.year) ++ "-" ++ String.mk (digits2 dt.month) ++ "-" ++
    String.mk (digits2 dt.day)

/-- `format_date_for_api` from the source: convert aware values to UTC,
then wrap the date-only rendering as `date(YYYY-MM-DD)`. -/
def format_date_for_api (dt : Datetime) : String :=
  let dtu := if dt.tz.isSome then astimezoneUTC dt else dt
  "date(" ++ strftimeYmd dtu ++ ")"

/-- The context clause of the query filter: `context.id==<branch>` when the
branch argument is truthy, `context.type==CONTEXT_TYPE_MAIN` otherwise. -/
def context_part (branch : Option String) : String :=
  if pyTruthy branch then "context.id==" ++ branch.getD ""
  else "context.type==CONTEXT_TYPE_MAIN"

/-- The full `context_filter` string built in `get_new_dependencies`. -/
def build_filter (project_uuid : String) (cutoff : Datetime) (branch : Option String) : String :=
  "spec.importer_data.project_uuid==" ++ project_uuid ++ " and meta.create_time>=" ++
    format_date_for_api cutoff ++ " and " ++ context_part branch

/-- The suffix after the FIRST occurrence of `://` (the behavior the claim
text describes for package-name normalization). -/
def afterFirstArrow : List Char → List Char
  | c1 :: c2 :: c3 :: rest =>
    if c1 = ':' ∧ c2 = '/' ∧ c3 = '/' then rest else afterFirstArrow (c2 :: c3 :: rest)
  | _ => []

/-- Package-name normalization as the claim words it: split on the first
occurrence of `://` and keep only the suffix; otherwise unchanged. -/
def strip_pkg_claim (pn : String) : String :=
  if (!pn.isEmpty && containsArrow pn.toList) = true then String.mk (afterFirstArrow pn.toList)
  else pn

/-- Date sanitization as the claim words it: hyphens, colons and the
literal `T` are stripped (removed), and the text is truncated at the zone
marker / offset. -/
def sanitize_date_claim (s : String) : String :=
  String.mk ((s.toList.filter (fun c => !(c = '-') && !(c = ':') && !(c = 'T'))).takeWhile
    (fun c => !(c = '+') && !(c = 'Z')))

/-- Date sanitization as amended: hyphens and colons are stripped, the
literal `T` is replaced with an underscore, and the text is truncated at
the first `+` or `Z`. -/
def sanitize_date_amended (s : String) : String :=
  String.mk (((s.toList.filter (fun c => !(c = '-') && !(c = ':'))).map
    (fun c => if c = 'T' then '_' else c)).takeWhile (fun c => !(c = '+') && !(c = 'Z')))

/-- Branch sanitization as one pass: path separators and spaces become
underscores. -/
def sanitize_branch_amended (b : String) : String :=
  String.mk (b.toList.map (fun c => if c = '/' ∨ c = '\\' ∨ c = ' ' then '_' else c))

/-- Filename generation as the claim words it (with `T` stripped). -/
def generate_output_filenames_claim (project_uuid date_str : String) (branch : Option String) :
    String × String :=
  let safe_date := sanitize_date_claim date_str
  let base :=
    if pyTruthy branch then
      project_uuid ++ "_new_dependencies_" ++ safe_date ++ "_" ++
        sanitize_branch_amended (branch.getD "")
    else project_uuid ++ "_new_dependencies_" ++ safe_date
  (base ++ ".json", base ++ ".csv")

/-- Filename generation as amended (with `T` replaced by an underscore). -/
def generate_output_filenames_amended (project_uuid date_str : String) (branch : Option String) :
    String × String :=
  let safe_date := sanitize_date_amended date_str
  let base :=
    if pyTruthy branch then
      project_uuid ++ "_new_dependencies_" ++ safe_date ++ "_" ++
        sanitize_branch_amended (branch.getD "")
    else project_uuid ++ "_new_dependencies_" ++ safe_date
  (base ++ ".json", base ++ ".csv")

/-! ### List helper lemmas -/

theorem takeWhile_and (p q : Char → Bool) (l : List Char) :
    (l.takeWhile p).takeWhile q = l.takeWhile (fun c => p c && q c) := by
  induction l with
  | nil => rfl
  | cons a l ih =>
    cases hp : p a <;> cases hq : q a <;> simp [List.takeWhile, hp, hq, ih]

theorem filter_and (p q : Char → Bool) (l : List Char) :
    (l.filter p).filter q = l.filter (fun c => p c && q c) := by
  induction l with
  | nil => rfl
  | cons a l ih =>
    cases hp : p a <;> cases hq : q a <;> simp [List.filter, hp, hq, ih]

theorem filter_comm_map (f : Char → Char) (p : Char → Bool) (h : ∀ c, p (f c) = p c)
    (l : List Char) : (l.map f).filter p = (l.filter p).map f := by
  induction l with
  | nil => rfl
  | cons a l ih =>
    cases hp : p a <;> simp [List.filter, h a, hp, ih]

/-! ### Lemmas about the `://` split -/

theorem splitOnArrow_ne_nil : ∀ l : List Char, splitOnArrow l ≠ [] := by
  intro l
  rcases l with _ | ⟨c1, _ | ⟨c2, _ | ⟨c3, r⟩⟩⟩
  · simp [splitOnArrow]
  · simp [splitOnArrow]
  · simp [splitOnArrow]
  · simp only [splitOnArrow]
    by_cases h : c1 = ':' ∧ c2 = '/' ∧ c3 = '/'
    · simp [h]
    · rw [if_neg h]
      rcases hs : splitOnArrow (c2 :: c3 :: r) with _ | ⟨h0, t⟩ <;> simp

theorem splitOnArrow_no_arrow : ∀ l : List Char, containsArrow l = false → splitOnArrow l = [l] := by
  intro l
  induction l with
  | nil => intro _; rfl
  | cons c t ih =>
    intro hc
    rcases t with _ | ⟨c2, _ | ⟨c3, r⟩⟩
    · rfl
    · rfl
    · rw [containsArrow] at hc
      have hparts := Bool.or_eq_false_iff.mp hc
      have htail : containsArrow (c2 :: c3 :: r) = false := hparts.2
      have hn : ¬(c = ':' ∧ c2 = '/' ∧ c3 = '/') := by
        intro h
        rcases h with ⟨h1, h2, h3⟩
        subst h1; subst h2; subst h3
        simp at hparts
      simp only [splitOnArrow]
      rw [if_neg hn, ih htail]

theorem containsArrow_append : ∀ u v : List Char,
    containsArrow (u ++ ':' :: '/' :: '/' :: v) = true := by
  intro u v
  induction u with
  | nil => simp [containsArrow]
  | cons c u' ih =>
    simp only [List.cons_append, List.nil_append] at ih ⊢
    rcases u' with _ | ⟨d, _ | ⟨e, u3⟩⟩
    · simp only [List.nil_append]
      rw [containsArrow]
      simp [containsArrow]
    · simp only [List.cons_append, List.nil_append] at ih ⊢
      rw [containsArrow, ih]
      simp
    · simp only [List.cons_append] at ih ⊢
      rw [containsArrow, ih]
      simp

theorem two_le_splitOnArrow_length :
    ∀ n l, l.length ≤ n → containsArrow l = true → 2 ≤ (splitOnArrow l).length := by
  intro n
  induction n with
  | zero =>
    intro l hl hc
    rcases l with _ | ⟨c, t⟩
    · simp [containsArrow] at hc
    · simp at hl
  | succ n ih =>
    intro l hl hc
    rcases l with _ | ⟨c1, _ | ⟨c2, _ | ⟨c3, r⟩⟩⟩
    · simp [containsArrow] at hc
    · simp [containsArrow] at hc
    · simp [containsArrow] at hc
    · by_cases h : c1 = ':' ∧ c2 = '/' ∧ c3 = '/'
      · simp only [splitOnArrow]
        rw [if_pos h]
        have := splitOnArrow_ne_nil r
        have hpos : 0 < (splitOnArrow r).length := List.length_pos.mpr this
        simp
        omega
      · rw [containsArrow] at hc
        have hfalse : (decide (c1 = ':') && decide (c2 = '/') && decide (c3 = '/')) = false := by
          simpa using h
        rw [hfalse, Bool.false_or] at hc
        have hlen : (c2 :: c3 :: r).length ≤ n := by simp at hl ⊢; omega
        have htwo := ih (c2 :: c3 :: r) hlen hc
        simp only [splitOnArrow]
        rw [if_neg h]
        rcases hs : splitOnArrow (c2 :: c3 :: r) with _ | ⟨h0, t⟩
        · exact absurd hs (splitOnArrow_ne_nil _)
        · rw [hs] at htwo
          simp at htwo ⊢
          omega

theorem getLastD_default_irrel (t : List (List Char)) (ht : t ≠ []) (d1 d2 : List Char) :
    t.getLastD d1 = t.getLastD d2 := by
  rw [List.getLastD_eq_getLast?, List.getLastD_eq_getLast?, List.getLast?_eq_getLast t ht]
  rfl

theorem splitOnArrow_arrow_head (b : List Char) (hb : containsArrow b = false) :
    splitOnArrow (':' :: '/' :: '/' :: b) = [[], b] := by
  simp [splitOnArrow, splitOnArrow_no_arrow b hb]

theorem splitOnArrow_cons3 (c1 c2 c3 : Char) (r : List Char) :
    splitOnArrow (c1 :: c2 :: c3 :: r) =
      if c1 = ':' ∧ c2 = '/' ∧ c3 = '/' then [] :: splitOnArrow r
      else
        match splitOnArrow (c2 :: c3 :: r) with
        | [] => [[c1]]
        | h :: t => (c1 :: h) :: t := rfl

theorem two_le_splitOnArrow_len (l : List Char) (hc : containsArrow l = true) :
    2 ≤ (splitOnArrow l).length :=
  two_le_splitOnArrow_length l.length l (le_refl _) hc

theorem getLastD_splitOnArrow_append :
    ∀ n (a : List Char), a.length ≤ n → ∀ b, containsArrow b = false →
      (splitOnArrow (a ++ ':' :: '/' :: '/' :: b)).getLastD [] = b := by
  intro n
  induction n with
  | zero =>
    intro a ha b hb
    rcases a with _ | ⟨c, t⟩
    · rw [List.nil_append, splitOnArrow_arrow_head b hb]
      rfl
    · simp at ha
  | succ n ih =>
    intro a ha b hb
    rcases a with _ | ⟨c1, _ | ⟨c2, _ | ⟨c3, a3⟩⟩⟩
    · rw [List.nil_append, splitOnArrow_arrow_head b hb]
      rfl
    · -- a = [c1]
      simp only [List.cons_append, List.nil_append]
      rw [splitOnArrow_cons3]
      have hn : ¬(c1 = ':' ∧ ':' = '/' ∧ '/' = '/') := by simp
      rw [if_neg hn, splitOnArrow_arrow_head b hb]
      rfl
    · -- a = [c1, c2]
      simp only [List.cons_append, List.nil_append]
      rw [splitOnArrow_cons3]
      have hn : ¬(c1 = ':' ∧ c2 = '/' ∧ ':' = '/') := by simp
      rw [if_neg hn]
      have hrec := ih [c2] (by simp at ha ⊢; omega) b hb
      simp only [List.cons_append, List.nil_append] at hrec
      have harrow := containsArrow_append [c2] b
      simp only [List.cons_append, List.nil_append] at harrow
      have hlen2 := two_le_splitOnArrow_len (c2 :: ':' :: '/' :: '/' :: b) harrow
      rcases hs : splitOnArrow (c2 :: ':' :: '/' :: '/' :: b) with _ | ⟨h0, t⟩
      · exact absurd hs (splitOnArrow_ne_nil _)
      · rw [hs] at hrec hlen2
        have htne : t ≠ [] := by
          intro h
          rw [h] at hlen2
          simp at hlen2
        simp only [hs]
        rw [List.getLastD_cons] at hrec ⊢
        rw [getLastD_default_irrel t htne (c1 :: h0) h0]
        exact hrec
    · -- a = c1 :: c2 :: c3 :: a3
      simp only [List.cons_append]
      rw [splitOnArrow_cons3]
      by_cases harr : c1 = ':' ∧ c2 = '/' ∧ c3 = '/'
      · rw [if_pos harr]
        have hrec := ih a3 (by simp at ha ⊢; omega) b hb
        rw [List.getLastD_cons]
        exact hrec
      · rw [if_neg harr]
        have hrec := ih (c2 :: c3 :: a3) (by simp at ha ⊢; omega) b hb
        simp only [List.cons_append] at hrec
        have harrow := containsArrow_append (c2 :: c3 :: a3) b
        simp only [List.cons_append] at harrow
        have hlen2 := two_le_splitOnArrow_len
          (c2 :: c3 :: (a3 ++ ':' :: '/' :: '/' :: b)) harrow
        rcases hs : splitOnArrow (c2 :: c3 :: (a3 ++ ':' :: '/' :: '/' :: b)) with _ | ⟨h0, t⟩
        · exact absurd hs (splitOnArrow_ne_nil _)
        · rw [hs] at hrec hlen2
          have htne : t ≠ [] := by
            intro h
            rw [h] at hlen2
            simp at hlen2
          simp only [hs]
          rw [List.getLastD_cons] at hrec ⊢
          rw [getLastD_default_irrel t htne (c1 :: h0) h0]
          exact hrec

theorem getLastD_splitOnArrow (a b : List Char) (hb : containsArrow b = false) :
    (splitOnArrow (a ++ ':' :: '/' :: '/' :: b)).getLastD [] = b :=
  getLastD_splitOnArrow_append a.length a (le_refl _) b hb

/-! ### Renderings of the four accepted layouts -/

/-- Characters `YYYY-MM-DD` followed by `r`. -/
def renderYmdL (y m d : Nat) (r : List Char) : List Char :=
  digits4 y ++ '-' :: (digits2 m ++ '-' :: (digits2 d ++ r))

/-- Characters `HH:MM:SS` followed by `r`. -/
def renderHmsL (h mi s : Nat) (r : List Char) : List Char :=
  digits2 h ++ ':' :: (digits2 mi ++ ':' :: (digits2 s ++ r))

/-- A date-only text `YYYY-MM-DD`. -/
def render_date_only (y m d : Nat) : String := String.mk (renderYmdL y m d [])

/-- A date+time text `YYYY-MM-DDTHH:MM:SS`. -/
def render_date_time (y m d h mi s : Nat) : String :=
  String.mk (renderYmdL y m d ('T' :: renderHmsL h mi s []))

/-- A date+time text with the `Z` literal, `YYYY-MM-DDTHH:MM:SSZ`. -/
def render_date_time_z (y m d h mi s : Nat) : String :=
  String.mk (renderYmdL y m d ('T' :: renderHmsL h mi s ['Z']))

/-- A date+space+time text `YYYY-MM-DD HH:MM:SS`. -/
def render_date_space (y m d h mi s : Nat) : String :=
  String.mk (renderYmdL y m d (' ' :: renderHmsL h mi s []))

/-! ### Lemmas about the strptime matchers -/

theorem daysInMonthN_le_31 (y m : Nat) : daysInMonthN y m ≤ 31 := by
  unfold daysInMonthN
  split_ifs <;> omega

theorem isDig_digitChar (k : Nat) (hk : k ≤ 9) : isDig (Nat.digitChar k) = true := by
  interval_cases k <;> decide

theorem dv_digitChar (k : Nat) (hk : k ≤ 9) : dv (Nat.digitChar k) = k := by
  interval_cases k <;> decide

theorem matchY_eq (c1 c2 c3 c4 : Char) (r : List Char) :
    matchY (c1 :: c2 :: c3 :: c4 :: r) =
      if isDig c1 && isDig c2 && isDig c3 && isDig c4 then
        some (((dv c1 * 10 + dv c2) * 10 + dv c3) * 10 + dv c4, r)
      else none := rfl

theorem matchMonth_eq (c1 c2 : Char) (r : List Char) :
    matchMonth (c1 :: c2 :: r) =
      if isDig c1 ∧ isDig c2 ∧ ((dv c1 = 1 ∧ dv c2 ≤ 2) ∨ (dv c1 = 0 ∧ 1 ≤ dv c2)) then
        some (dv c1 * 10 + dv c2, r)
      else if isDig c1 ∧ 1 ≤ dv c1 then some (dv c1, c2 :: r)
      else none := rfl

theorem matchDay_eq (c1 c2 : Char) (r : List Char) :
    matchDay (c1 :: c2 :: r) =
      if isDig c1 ∧ isDig c2 ∧
          ((dv c1 = 3 ∧ dv c2 ≤ 1) ∨ (1 ≤ dv c1 ∧ dv c1 ≤ 2) ∨ (dv c1 = 0 ∧ 1 ≤ dv c2)) then
        some (dv c1 * 10 + dv c2, r)
      else if isDig c1 ∧ 1 ≤ dv c1 then some (dv c1, c2 :: r)
      else none := rfl

theorem matchHour_eq (c1 c2 : Char) (r : List Char) :
    matchHour (c1 :: c2 :: r) =
      if isDig c1 ∧ isDig c2 ∧ ((dv c1 = 2 ∧ dv c2 ≤ 3) ∨ dv c1 ≤ 1) then
        some (dv c1 * 10 + dv c2, r)
      else if isDig c1 then some (dv c1, c2 :: r)
      else none := rfl

theorem matchMin_eq (c1 c2 : Char) (r : List Char) :
    matchMin (c1 :: c2 :: r) =
      if isDig c1 ∧ isDig c2 ∧ dv c1 ≤ 5 then some (dv c1 * 10 + dv c2, r)
      else if isDig c1 then some (dv c1, c2 :: r)
      else none := rfl

theorem matchSec_eq (c1 c2 : Char) (r : List Char) :
    matchSec (c1 :: c2 :: r) =
      if isDig c1 ∧ isDig c2 ∧ ((dv c1 = 6 ∧ dv c2 ≤ 1) ∨ dv c1 ≤ 5) then
        some (dv c1 * 10 + dv c2, r)
      else if isDig c1 then some (dv c1, c2 :: r)
      else none := rfl

theorem matchY_digits4 (y : Nat) (hy : y ≤ 9999) (r : List Char) :
    matchY (digits4 y ++ r) = some (y, r) := by
  have h1 : y / 1000 % 10 ≤ 9 := by omega
  have h2 : y / 100 % 10 ≤ 9 := by omega
  have h3 : y / 10 % 10 ≤ 9 := by omega
  have h4 : y % 10 ≤ 9 := by omega
  show matchY (Nat.digitChar (y / 1000 % 10) :: Nat.digitChar (y / 100 % 10) ::
    Nat.digitChar (y / 10 % 10) :: Nat.digitChar (y % 10) :: r) = some (y, r)
  rw [matchY_eq, isDig_digitChar _ h1, isDig_digitChar _ h2, isDig_digitChar _ h3,
    isDig_digitChar _ h4, dv_digitChar _ h1, dv_digitChar _ h2, dv_digitChar _ h3,
    dv_digitChar _ h4]
  have hv : ((y / 1000 % 10 * 10 + y / 100 % 10) * 10 + y / 10 % 10) * 10 + y % 10 = y := by
    omega
  rw [hv]
  rfl

theorem matchMonth_digits2 (m : Nat) (h1 : 1 ≤ m) (h2 : m ≤ 12) (r : List Char) :
    matchMonth (digits2 m ++ r) = some (m, r) := by
  have ha : m / 10 % 10 ≤ 9 := by omega
  have hb : m % 10 ≤ 9 := by omega
  show matchMonth (Nat.digitChar (m / 10 % 10) :: Nat.digitChar (m % 10) :: r) = some (m, r)
  rw [matchMonth_eq, isDig_digitChar _ ha, isDig_digitChar _ hb, dv_digitChar _ ha,
    dv_digitChar _ hb]
  rw [if_pos ⟨rfl, rfl, by omega⟩]
  have hv : m / 10 % 10 * 10 + m % 10 = m := by omega
  rw [hv]

theorem matchDay_digits2 (d : Nat) (h1 : 1 ≤ d) (h2 : d ≤ 31) (r : List Char) :
    matchDay (digits2 d ++ r) = some (d, r) := by
  have ha : d / 10 % 10 ≤ 9 := by omega
  have hb : d % 10 ≤ 9 := by omega
  show matchDay (Nat.digitChar (d / 10 % 10) :: Nat.digitChar (d % 10) :: r) = some (d, r)
  rw [matchDay_eq, isDig_digitChar _ ha, isDig_digitChar _ hb, dv_digitChar _ ha,
    dv_digitChar _ hb]
  rw [if_pos ⟨rfl, rfl, by omega⟩]
  have hv : d / 10 % 10 * 10 + d % 10 = d := by omega
  rw [hv]

theorem matchHour_digits2 (h : Nat) (h2 : h ≤ 23) (r : List Char) :
    matchHour (digits2 h ++ r) = some (h, r) := by
  have ha : h / 10 % 10 ≤ 9 := by omega
  have hb : h % 10 ≤ 9 := by omega
  show matchHour (Nat.digitChar (h / 10 % 10) :: Nat.digitChar (h % 10) :: r) = some (h, r)
  rw [matchHour_eq, isDig_digitChar _ ha, isDig_digitChar _ hb, dv_digitChar _ ha,
    dv_digitChar _ hb]
  rw [if_pos ⟨rfl, rfl, by omega⟩]
  have hv : h / 10 % 10 * 10 + h % 10 = h := by omega
  rw [hv]

theorem matchMin_digits2 (mi : Nat) (h2 : mi ≤ 59) (r : List Char) :
    matchMin (digits2 mi ++ r) = some (mi, r) := by
  have ha : mi / 10 % 10 ≤ 9 := by omega
  have hb : mi % 10 ≤ 9 := by omega
  show matchMin (Nat.digitChar (mi / 10 % 10) :: Nat.digitChar (mi % 10) :: r) = some (mi, r)
  rw [matchMin_eq, isDig_digitChar _ ha, isDig_digitChar _ hb, dv_digitChar _ ha,
    dv_digitChar _ hb]
  rw [if_pos ⟨rfl, rfl, by omega⟩]
  have hv : mi / 10 % 10 * 10 + mi % 10 = mi := by omega
  rw [hv]

theorem matchSec_digits2 (s : Nat) (h2 : s ≤ 59) (r : List Char) :
    matchSec (digits2 s ++ r) = some (s, r) := by
  have ha : s / 10 % 10 ≤ 9 := by omega
  have hb : s % 10 ≤ 9 := by omega
  show matchSec (Nat.digitChar (s / 10 % 10) :: Nat.digitChar (s % 10) :: r) = some (s, r)
  rw [matchSec_eq, isDig_digitChar _ ha, isDig_digitChar _ hb, dv_digitChar _ ha,
    dv_digitChar _ hb]
  rw [if_pos ⟨rfl, rfl, by omega⟩]
  have hv : s / 10 % 10 * 10 + s % 10 = s := by omega
  rw [hv]

/-! ### Lemmas about `strpItems` and `tryParse` -/

theorem strpItems_nil_nil (f : StrpF) : strpItems [] [] f = some f := rfl

theorem strpItems_nil_cons (c : Char) (rest : List Char) (f : StrpF) :
    strpItems [] (c :: rest) f = none := rfl

theorem strpItems_lit (c : Char) (items : List FmtItem) (c2 : Char) (rest : List Char)
    (f : StrpF) :
    strpItems (FmtItem.lit c :: items) (c2 :: rest) f =
      if c2 = c then strpItems items rest f else none := rfl

theorem strpItems_dY (items : List FmtItem) (s : List Char) (f : StrpF) :
    strpItems (FmtItem.dY :: items) s f =
      match matchY s with
      | some (v, rest) => strpItems items rest { f with Y := v }
      | none => none := rfl

theorem strpItems_dm (items : List FmtItem) (s : List Char) (f : StrpF) :
    strpItems (FmtItem.dm :: items) s f =
      match matchMonth s with
      | some (v, rest) => strpItems items rest { f with m := v }
      | none => none := rfl

theorem strpItems_dd (items : List FmtItem) (s : List Char) (f : StrpF) :
    strpItems (FmtItem.dd :: items) s f =
      match matchDay s with
      | some (v, rest) => strpItems items rest { f with d := v }
      | none => none := rfl

theorem strpItems_dH (items : List FmtItem) (s : List Char) (f : StrpF) :
    strpItems (FmtItem.dH :: items) s f =
      match matchHour s with
      | some (v, rest) => strpItems items rest { f with H := v }
      | none => none := rfl

theorem strpItems_dM (items : List FmtItem) (s : List Char) (f : StrpF) :
    strpItems (FmtItem.dM :: items) s f =
      match matchMin s with
      | some (v, rest) => strpItems items rest { f with M := v }
      | none => none := rfl

theorem strpItems_dS (items : List FmtItem) (s : List Char) (f : StrpF) :
    strpItems (FmtItem.dS :: items) s f =
      match matchSec s with
      | some (v, rest) => strpItems items rest { f with S := v }
      | none => none := rfl

theorem strpItems_date (items : List FmtItem) (y m d : Nat) (r : List Char) (f : StrpF)
    (hy : y ≤ 9999) (hm1 : 1 ≤ m) (hm2 : m ≤ 12) (hd1 : 1 ≤ d) (hd2 : d ≤ 31) :
    strpItems
      (FmtItem.dY :: FmtItem.lit '-' :: FmtItem.dm :: FmtItem.lit '-' :: FmtItem.dd :: items)
      (renderYmdL y m d r) f = strpItems items r ⟨y, m, d, f.H, f.M, f.S⟩ := by
  simp only [renderYmdL, strpItems_dY, matchY_digits4 y hy, strpItems_lit, eq_self_iff_true,
    if_true, strpItems_dm, matchMonth_digits2 m hm1 hm2, strpItems_dd,
    matchDay_digits2 d hd1 hd2]

theorem strpItems_time (items : List FmtItem) (h mi s : Nat) (r : List Char) (f : StrpF)
    (hh : h ≤ 23) (hmi : mi ≤ 59) (hs : s ≤ 59) :
    strpItems
      (FmtItem.dH :: FmtItem.lit ':' :: FmtItem.dM :: FmtItem.lit ':' :: FmtItem.dS :: items)
      (renderHmsL h mi s r) f = strpItems items r ⟨f.Y, f.m, f.d, h, mi, s⟩ := by
  simp only [renderHmsL, strpItems_dH, matchHour_digits2 h hh, strpItems_lit, eq_self_iff_true,
    if_true, strpItems_dM, matchMin_digits2 mi hmi, strpItems_dS, matchSec_digits2 s hs]

theorem tryParse_eq (fmt : List FmtItem) (s : List Char) :
    tryParse fmt s =
      match strpItems fmt s ⟨1900, 1, 1, 0, 0, 0⟩ with
      | some f =>
        if 1 ≤ f.Y ∧ 1 ≤ f.m ∧ f.m ≤ 12 ∧ 1 ≤ f.d ∧ f.d ≤ daysInMonthN f.Y f.m ∧
            f.H ≤ 23 ∧ f.M ≤ 59 ∧ f.S ≤ 59 then
          some ⟨f.Y, f.m, f.d, f.H, f.M, f.S, none⟩
        else none
      | none => none := rfl

theorem tryParse_dateOnly_render (y m d : Nat) (hy1 : 1 ≤ y) (hy : y ≤ 9999) (hm1 : 1 ≤ m)
    (hm2 : m ≤ 12) (hd1 : 1 ≤ d) (hd2 : d ≤ daysInMonthN y m) :
    tryParse fmtDateOnly (renderYmdL y m d []) = some ⟨y, m, d, 0, 0, 0, none⟩ := by
  have hd31 : d ≤ 31 := le_trans hd2 (daysInMonthN_le_31 y m)
  rw [tryParse_eq, fmtDateOnly,
    strpItems_date [] y m d [] ⟨1900, 1, 1, 0, 0, 0⟩ hy hm1 hm2 hd1 hd31]
  simp only [strpItems_nil_nil]
  rw [if_pos ⟨hy1, hm1, hm2, hd1, hd2, by omega, by omega, by omega⟩]

theorem tryParse_dateOnly_extra_none (y m d : Nat) (hy : y ≤ 9999) (hm1 : 1 ≤ m)
    (hm2 : m ≤ 12) (hd1 : 1 ≤ d) (hd31 : d ≤ 31) (c : Char) (r : List Char) :
    tryParse fmtDateOnly (renderYmdL y m d (c :: r)) = none := by
  rw [tryParse_eq, fmtDateOnly,
    strpItems_date [] y m d (c :: r) ⟨1900, 1, 1, 0, 0, 0⟩ hy hm1 hm2 hd1 hd31]
  simp only [strpItems_nil_cons]

theorem tryParse_dateTime_render (y m d h mi s : Nat) (hy1 : 1 ≤ y) (hy : y ≤ 9999)
    (hm1 : 1 ≤ m) (hm2 : m ≤ 12) (hd1 : 1 ≤ d) (hd2 : d ≤ daysInMonthN y m) (hh : h ≤ 23)
    (hmi : mi ≤ 59) (hs : s ≤ 59) :
    tryParse fmtDateTime (renderYmdL y m d ('T' :: renderHmsL h mi s [])) =
      some ⟨y, m, d, h, mi, s, none⟩ := by
  have hd31 : d ≤ 31 := le_trans hd2 (daysInMonthN_le_31 y m)
  rw [tryParse_eq, fmtDateTime, strpItems_date _ y m d _ ⟨1900, 1, 1, 0, 0, 0⟩ hy hm1 hm2 hd1
    hd31, strpItems_lit, if_pos rfl, strpItems_time [] h mi s [] ⟨y, m, d, 0, 0, 0⟩ hh hmi hs]
  simp only [strpItems_nil_nil]
  rw [if_pos ⟨hy1, hm1, hm2, hd1, hd2, hh, hmi, hs⟩]

theorem tryParse_dateTime_trailZ_none (y m d h mi s : Nat) (hy : y ≤ 9999)
    (hm1 : 1 ≤ m) (hm2 : m ≤ 12) (hd1 : 1 ≤ d) (hd31 : d ≤ 31) (hh : h ≤ 23)
    (hmi : mi ≤ 59) (hs : s ≤ 59) :
    tryParse fmtDateTime (renderYmdL y m d ('T' :: renderHmsL h mi s ['Z'])) = none := by
  rw [tryParse_eq, fmtDateTime, strpItems_date _ y m d _ ⟨1900, 1, 1, 0, 0, 0⟩ hy hm1 hm2 hd1
    hd31, strpItems_lit, if_pos rfl, strpItems_time [] h mi s ['Z'] ⟨y, m, d, 0, 0, 0⟩ hh hmi hs]
  simp only [strpItems_nil_cons]

theorem tryParse_dateTime_space_none (y m d : Nat) (hy : y ≤ 9999) (hm1 : 1 ≤ m)
    (hm2 : m ≤ 12) (hd1 : 1 ≤ d) (hd31 : d ≤ 31) (r : List Char) :
    tryParse fmtDateTime (renderYmdL y m d (' ' :: r)) = none := by
  rw [tryParse_eq, fmtDateTime,
    strpItems_date _ y m d _ ⟨1900, 1, 1, 0, 0, 0⟩ hy hm1 hm2 hd1 hd31, strpItems_lit,
    if_neg (by decide)]

theorem tryParse_dateTimeZ_render (y m d h mi s : Nat) (hy1 : 1 ≤ y) (hy : y ≤ 9999)
    (hm1 : 1 ≤ m) (hm2 : m ≤ 12) (hd1 : 1 ≤ d) (hd2 : d ≤ daysInMonthN y m) (hh : h ≤ 23)
    (hmi : mi ≤ 59) (hs : s ≤ 59) :
    tryParse fmtDateTimeZ (renderYmdL y m d ('T' :: renderHmsL h mi s ['Z'])) =
      some ⟨y, m, d, h, mi, s, none⟩ := by
  have hd31 : d ≤ 31 := le_trans hd2 (daysInMonthN_le_31 y m)
  rw [tryParse_eq]
  have hfmt : fmtDateTimeZ =
      FmtItem.dY :: FmtItem.lit '-' :: FmtItem.dm :: FmtItem.lit '-' :: FmtItem.dd ::
        [FmtItem.lit 'T', FmtItem.dH, FmtItem.lit ':', FmtItem.dM, FmtItem.lit ':',
          FmtItem.dS, FmtItem.lit 'Z'] := rfl
  rw [hfmt, strpItems_date _ y m d _ ⟨1900, 1, 1, 0, 0, 0⟩ hy hm1 hm2 hd1 hd31, strpItems_lit,
    if_pos rfl,
    strpItems_time [FmtItem.lit 'Z'] h mi s ['Z'] ⟨y, m, d, 0, 0, 0⟩ hh hmi hs, strpItems_lit,
    if_pos rfl]
  simp only [strpItems_nil_nil]
  rw [if_pos ⟨hy1, hm1, hm2, hd1, hd2, hh, hmi, hs⟩]

theorem tryParse_dateTimeZ_space_none (y m d : Nat) (hy : y ≤ 9999) (hm1 : 1 ≤ m)
    (hm2 : m ≤ 12) (hd1 : 1 ≤ d) (hd31 : d ≤ 31) (r : List Char) :
    tryParse fmtDateTimeZ (renderYmdL y m d (' ' :: r)) = none := by
  rw [tryParse_eq]
  have hfmt : fmtDateTimeZ =
      FmtItem.dY :: FmtItem.lit '-' :: FmtItem.dm :: FmtItem.lit '-' :: FmtItem.dd ::
        [FmtItem.lit 'T', FmtItem.dH, FmtItem.lit ':', FmtItem.dM, FmtItem.lit ':',
          FmtItem.dS, FmtItem.lit 'Z'] := rfl
  rw [hfmt, strpItems_date _ y m d _ ⟨1900, 1, 1, 0, 0, 0⟩ hy hm1 hm2 hd1 hd31, strpItems_lit,
    if_neg (by decide)]

theorem tryParse_dateSpace_render (y m d h mi s : Nat) (hy1 : 1 ≤ y) (hy : y ≤ 9999)
    (hm1 : 1 ≤ m) (hm2 : m ≤ 12) (hd1 : 1 ≤ d) (hd2 : d ≤ daysInMonthN y m) (hh : h ≤ 23)
    (hmi : mi ≤ 59) (hs : s ≤ 59) :
    tryParse fmtDateSpace (renderYmdL y m d (' ' :: renderHmsL h mi s [])) =
      some ⟨y, m, d, h, mi, s, none⟩ := by
  have hd31 : d ≤ 31 := le_trans hd2 (daysInMonthN_le_31 y m)
  rw [tryParse_eq, fmtDateSpace, strpItems_date _ y m d _ ⟨1900, 1, 1, 0, 0, 0⟩ hy hm1 hm2 hd1
    hd31, strpItems_lit, if_pos rfl, strpItems_time [] h mi s [] ⟨y, m, d, 0, 0, 0⟩ hh hmi hs]
  simp only [strpItems_nil_nil]
  rw [if_pos ⟨hy1, hm1, hm2, hd1, hd2, hh, hmi, hs⟩]

theorem firstParse_cons (fmt : List FmtItem) (fs : List (List FmtItem)) (s : List Char) :
    firstParse (fmt :: fs) s =
      match tryParse fmt s with
      | some dt => some dt
      | none => firstParse fs s := rfl

theorem parse_date_eq (s : String) :
    parse_date s =
      match firstParse date_formats s.toList with
      | some dt => Except.ok (pyReplaceTzUTC dt)
      | none => Except.error (parse_date_error s) := rfl

theorem parse_date_render_date_only (y m d : Nat) (hy1 : 1 ≤ y) (hy : y ≤ 9999) (hm1 : 1 ≤ m)
    (hm2 : m ≤ 12) (hd1 : 1 ≤ d) (hd2 : d ≤ daysInMonthN y m) :
    parse_date (render_date_only y m d) = Except.ok ⟨y, m, d, 0, 0, 0, some 0⟩ := by
  have hl : (render_date_only y m d).toList = renderYmdL y m d [] := rfl
  rw [parse_date_eq, hl, date_formats, firstParse_cons,
    tryParse_dateOnly_render y m d hy1 hy hm1 hm2 hd1 hd2]
  simp [pyReplaceTzUTC]

theorem parse_date_render_date_time (y m d h mi s : Nat) (hy1 : 1 ≤ y) (hy : y ≤ 9999)
    (hm1 : 1 ≤ m) (hm2 : m ≤ 12) (hd1 : 1 ≤ d) (hd2 : d ≤ daysInMonthN y m) (hh : h ≤ 23)
    (hmi : mi ≤ 59) (hs : s ≤ 59) :
    parse_date (render_date_time y m d h mi s) = Except.ok ⟨y, m, d, h, mi, s, some 0⟩ := by
  have hd31 : d ≤ 31 := le_trans hd2 (daysInMonthN_le_31 y m)
  have hl : (render_date_time y m d h mi s).toList =
    renderYmdL y m d ('T' :: renderHmsL h mi s []) := rfl
  rw [parse_date_eq, hl, date_formats, firstParse_cons,
    tryParse_dateOnly_extra_none y m d hy hm1 hm2 hd1 hd31 'T' _, firstParse_cons,
    tryParse_dateTime_render y m d h mi s hy1 hy hm1 hm2 hd1 hd2 hh hmi hs]
  simp [pyReplaceTzUTC]

theorem parse_date_render_date_time_z (y m d h mi s : Nat) (hy1 : 1 ≤ y) (hy : y ≤ 9999)
    (hm1 : 1 ≤ m) (hm2 : m ≤ 12) (hd1 : 1 ≤ d) (hd2 : d ≤ daysInMonthN y m) (hh : h ≤ 23)
    (hmi : mi ≤ 59) (hs : s ≤ 59) :
    parse_date (render_date_time_z y m d h mi s) = Except.ok ⟨y, m, d, h, mi, s, some 0⟩ := by
  have hd31 : d ≤ 31 := le_trans hd2 (daysInMonthN_le_31 y m)
  have hl : (render_date_time_z y m d h mi s).toList =
    renderYmdL y m d ('T' :: renderHmsL h mi s ['Z']) := rfl
  rw [parse_date_eq, hl, date_formats, firstParse_cons,
    tryParse_dateOnly_extra_none y m d hy hm1 hm2 hd1 hd31 'T' _, firstParse_cons,
    tryParse_dateTime_trailZ_none y m d h mi s hy hm1 hm2 hd1 hd31 hh hmi hs, firstParse_cons,
    tryParse_dateTimeZ_render y m d h mi s hy1 hy hm1 hm2 hd1 hd2 hh hmi hs]
  simp [pyReplaceTzUTC]

theorem parse_date_render_date_space (y m d h mi s : Nat) (hy1 : 1 ≤ y) (hy : y ≤ 9999)
    (hm1 : 1 ≤ m) (hm2 : m ≤ 12) (hd1 : 1 ≤ d) (hd2 : d ≤ daysInMonthN y m) (hh : h ≤ 23)
    (hmi : mi ≤ 59) (hs : s ≤ 59) :
    parse_date (render_date_space y m d h mi s) = Except.ok ⟨y, m, d, h, mi, s, some 0⟩ := by
  have hd31 : d ≤ 31 := le_trans hd2 (daysInMonthN_le_31 y m)
  have hl : (render_date_space y m d h mi s).toList =
    renderYmdL y m d (' ' :: renderHmsL h mi s []) := rfl
  rw [parse_date_eq, hl, date_formats, firstParse_cons,
    tryParse_dateOnly_extra_none y m d hy hm1 hm2 hd1 hd31 ' ' _, firstParse_cons,
    tryParse_dateTime_space_none y m d hy hm1 hm2 hd1 hd31 _, firstParse_cons,
    tryParse_dateTimeZ_space_none y m d hy hm1 hm2 hd1 hd31 _, firstParse_cons,
    tryParse_dateSpace_render y m d h mi s hy1 hy hm1 hm2 hd1 hd2 hh hmi hs]
  simp [pyReplaceTzUTC]

/-! ### Lemmas about the pagination loop -/

theorem fetchGo_nil (cursor : Option String) (acc : List DepRecord) :
    fetchGo [] cursor acc = (acc, []) := rfl

theorem fetchGo_err (e : String) (rest : List (Except String Page)) (cursor : Option String)
    (acc : List DepRecord) :
    fetchGo (Except.error e :: rest) cursor acc = ([], [cursor]) := rfl

theorem fetchGo_ok (p : Page) (rest : List (Except String Page)) (cursor : Option String)
    (acc : List DepRecord) :
    fetchGo (Except.ok p :: rest) cursor acc =
      if pyTruthy p.next_page_id then
        ((fetchGo rest p.next_page_id (acc ++ p.objects.map normalize_dependency)).1,
          cursor :: (fetchGo rest p.next_page_id (acc ++ p.objects.map normalize_dependency)).2)
      else (acc ++ p.objects.map normalize_dependency, [cursor]) := rfl

theorem fetchGo_ok_pages (init : List Page) (plast : Page)
    (hmid : init.all (fun p => pyTruthy p.next_page_id) = true)
    (hlast : pyTruthy plast.next_page_id = false) :
    ∀ (cursor : Option String) (acc : List DepRecord),
      fetchGo ((init ++ [plast]).map Except.ok) cursor acc =
        (acc ++ ((init ++ [plast]).map (fun p => p.objects.map normalize_dependency)).flatten,
          cursor :: init.map (fun p => p.next_page_id)) := by
  induction init with
  | nil =>
    intro cursor acc
    simp only [List.nil_append, List.map_cons, List.map_nil]
    rw [fetchGo_ok, if_neg (by rw [hlast]; exact Bool.false_ne_true)]
    simp
  | cons p init ih =>
    intro cursor acc
    rw [List.all_cons, Bool.and_eq_true] at hmid
    have hstep := ih hmid.2
    simp only [List.cons_append, List.map_cons]
    rw [fetchGo_ok, if_pos hmid.1, hstep p.next_page_id (acc ++ p.objects.map normalize_dependency)]
    simp [List.append_assoc]

theorem fetchGo_err_after_good (good : List Page) (e : String)
    (rest : List (Except String Page)) :
    ∀ (cursor : Option String) (acc : List DepRecord),
      good.all (fun p => pyTruthy p.next_page_id) = true →
      (fetchGo (good.map Except.ok ++ Except.error e :: rest) cursor acc).1 = [] := by
  induction good with
  | nil =>
    intro cursor acc _
    rw [List.map_nil, List.nil_append, fetchGo_err]
  | cons p good ih =>
    intro cursor acc hall
    rw [List.all_cons, Bool.and_eq_true] at hall
    rw [List.map_cons, List.cons_append, fetchGo_ok, if_pos hall.1]
    exact ih p.next_page_id (acc ++ p.objects.map normalize_dependency) hall.2

/-! ### Lemmas about tz normalization and UTC formatting -/

theorem tryParse_tz_none (fmt : List FmtItem) (s : List Char) (dt : Datetime)
    (h : tryParse fmt s = some dt) : dt.tz = none := by
  rw [tryParse_eq] at h
  rcases hs : strpItems fmt s ⟨1900, 1, 1, 0, 0, 0⟩ with _ | f
  · rw [hs] at h
    simp at h
  · rw [hs] at h
    simp only [] at h
    by_cases hv : 1 ≤ f.Y ∧ 1 ≤ f.m ∧ f.m ≤ 12 ∧ 1 ≤ f.d ∧ f.d ≤ daysInMonthN f.Y f.m ∧
        f.H ≤ 23 ∧ f.M ≤ 59 ∧ f.S ≤ 59
    · rw [if_pos hv] at h
      cases h
      rfl
    · rw [if_neg hv] at h
      cases h

theorem firstParse_tz_none :
    ∀ (fs : List (List FmtItem)) (s : List Char) (dt : Datetime),
      firstParse fs s = some dt → dt.tz = none := by
  intro fs
  induction fs with
  | nil => intro s dt h; cases h
  | cons f fs ih =>
    intro s dt h
    rw [firstParse_cons] at h
    rcases ht : tryParse f s with _ | d
    · rw [ht] at h
      exact ih s dt h
    · rw [ht] at h
      cases h
      exact tryParse_tz_none f s _ ht

theorem parse_date_tz_utc (s : String) (dt : Datetime) (h : parse_date s = Except.ok dt) :
    dt.tz = some 0 := by
  rw [parse_date_eq] at h
  rcases hf : firstParse date_formats s.toList with _ | d
  · rw [hf] at h
    cases h
  · rw [hf] at h
    simp only [] at h
    cases h
    have hnone := firstParse_tz_none date_formats s.toList d hf
    rw [pyReplaceTzUTC, if_pos hnone]

theorem utcOfInstant_year (t : Int) (sec : Nat) :
    (utcOfInstant t sec).year = (civilFromDays (t.fdiv 1440)).1.toNat := rfl

theorem utcOfInstant_month (t : Int) (sec : Nat) :
    (utcOfInstant t sec).month = (civilFromDays (t.fdiv 1440)).2.1 := rfl

theorem utcOfInstant_day (t : Int) (sec : Nat) :
    (utcOfInstant t sec).day = (civilFromDays (t.fdiv 1440)).2.2 := rfl

theorem format_date_for_api_aware (dt : Datetime) (h : dt.tz.isSome = true) :
    format_date_for_api dt =
      "date(" ++ strftimeYmd (utcOfInstant (instantMinutes dt) dt.second) ++ ")" := by
  obtain ⟨o, ho⟩ := Option.isSome_iff_exists.mp h
  simp only [format_date_for_api, astimezoneUTC, ho, Option.isSome_some, eq_self_iff_true,
    if_true]

/-! ### Claim theorems -/

/-- Claim C1: if any page fetch raises a transport or non-success HTTP error,
`get_new_dependencies` returns the empty list — records accumulated from prior
successful pages are discarded — and the output writers still produce valid
empty-bodied files (a header-only CSV and the literal `[]` JSON array), the
process not exiting. -/
theorem c1_query_error_fail_fast (good : List Page) (e : String)
    (rest : List (Except String Page))
    (hgood : good.all (fun p => pyTruthy p.next_page_id) = true) :
    get_new_dependencies (good.map Except.ok ++ Except.error e :: rest) = []
    ∧ write_csv_content (get_new_dependencies (good.map Except.ok ++ Except.error e :: rest)) =
        csv_header
    ∧ write_json_content (get_new_dependencies (good.map Except.ok ++ Except.error e :: rest)) =
        "[]" := by
  have h : get_new_dependencies (good.map Except.ok ++ Except.error e :: rest) = [] :=
    fetchGo_err_after_good good e rest none [] hgood
  refine ⟨h, ?_, ?_⟩
  · rw [h]
    rfl
  · rw [h]
    rfl

/-- Witness for C1: a concrete three-page run whose first page carries one
record and a truthy cursor, whose second page fails; the result is empty
and the output files are empty-bodied. -/
theorem c1_query_error_fail_fast_witness :
    get_new_dependencies
        [Except.ok ⟨[⟨some ⟨some ⟨some "npm://foo", some "1.2.3"⟩⟩,
            some ⟨some "2024-02-01T00:00:00Z", some "foo"⟩, some "u1"⟩], some "page2"⟩,
          Except.error "HTTP 500",
          Except.ok ⟨[], none⟩] = []
    ∧ write_csv_content (get_new_dependencies
        [Except.ok ⟨[⟨some ⟨some ⟨some "npm://foo", some "1.2.3"⟩⟩,
            some ⟨some "2024-02-01T00:00:00Z", some "foo"⟩, some "u1"⟩], some "page2"⟩,
          Except.error "HTTP 500",
          Except.ok ⟨[], none⟩]) = csv_header
    ∧ write_json_content (get_new_dependencies
        [Except.ok ⟨[⟨some ⟨some ⟨some "npm://foo", some "1.2.3"⟩⟩,
            some ⟨some "2024-02-01T00:00:00Z", some "foo"⟩, some "u1"⟩], some "page2"⟩,
          Except.error "HTTP 500",
          Except.ok ⟨[], none⟩]) = "[]" :=
  c1_query_error_fail_fast
    [⟨[⟨some ⟨some ⟨some "npm://foo", some "1.2.3"⟩⟩,
        some ⟨some "2024-02-01T00:00:00Z", some "foo"⟩, some "u1"⟩], some "page2"⟩]
    "HTTP 500" [Except.ok ⟨[], none⟩] (by decide)

/-- Claim C2: when every page except the last supplies a truthy continuation
cursor, the pagination loop issues exactly one request per page in page order
(the first with no cursor, each later one carrying the cursor returned by the
previous response), accumulates the normalized records of each page in API
return order, and returns the full accumulated list. -/
theorem c2_pagination_accumulates (init : List Page) (plast : Page)
    (hmid : init.all (fun p => pyTruthy p.next_page_id) = true)
    (hlast : pyTruthy plast.next_page_id = false) :
    get_new_dependencies ((init ++ [plast]).map Except.ok) =
      ((init ++ [plast]).map (fun p => p.objects.map normalize_dependency)).flatten
    ∧ issued_requests ((init ++ [plast]).map Except.ok) =
        none :: init.map (fun p => p.next_page_id)
    ∧ (issued_requests ((init ++ [plast]).map Except.ok)).length =
        (init ++ [plast]).length := by
  have h := fetchGo_ok_pages init plast hmid hlast none []
  refine ⟨?_, ?_, ?_⟩
  · show (fetchGo ((init ++ [plast]).map Except.ok) none []).1 = _
    rw [h]
    simp
  · show (fetchGo ((init ++ [plast]).map Except.ok) none []).2 = _
    rw [h]
  · show (fetchGo ((init ++ [plast]).map Except.ok) none []).2.length = _
    rw [h]
    simp

/-- Witness for C2: three concrete pages where only the last has no cursor;
all records accumulate in order and the three requests carry the cursors
`none`, `p2`, `p3`. -/
theorem c2_pagination_accumulates_witness :
    get_new_dependencies
        [Except.ok ⟨[⟨some ⟨some ⟨some "npm://a", some "1"⟩⟩, some ⟨some "t1", some "a"⟩,
            some "u1"⟩], some "p2"⟩,
          Except.ok ⟨[⟨some ⟨some ⟨some "pypi://b", some "2"⟩⟩, some ⟨some "t2", some "b"⟩,
            some "u2"⟩], some "p3"⟩,
          Except.ok ⟨[⟨some ⟨some ⟨some "c", some "3"⟩⟩, some ⟨some "t3", some "c"⟩,
            some "u3"⟩], none⟩] =
      [⟨"a", "1", "t1", some "u1", "a"⟩, ⟨"b", "2", "t2", some "u2", "b"⟩,
        ⟨"c", "3", "t3", some "u3", "c"⟩]
    ∧ issued_requests
        [Except.ok ⟨[⟨some ⟨some ⟨some "npm://a", some "1"⟩⟩, some ⟨some "t1", some "a"⟩,
            some "u1"⟩], some "p2"⟩,
          Except.ok ⟨[⟨some ⟨some ⟨some "pypi://b", some "2"⟩⟩, some ⟨some "t2", some "b"⟩,
            some "u2"⟩], some "p3"⟩,
          Except.ok ⟨[⟨some ⟨some ⟨some "c", some "3"⟩⟩, some ⟨some "t3", some "c"⟩,
            some "u3"⟩], none⟩] = [none, some "p2", some "p3"] := by
  have h := c2_pagination_accumulates
    [⟨[⟨some ⟨some ⟨some "npm://a", some "1"⟩⟩, some ⟨some "t1", some "a"⟩, some "u1"⟩],
        some "p2"⟩,
      ⟨[⟨some ⟨some ⟨some "pypi://b", some "2"⟩⟩, some ⟨some "t2", some "b"⟩, some "u2"⟩],
        some "p3"⟩]
    ⟨[⟨some ⟨some ⟨some "c", some "3"⟩⟩, some ⟨some "t3", some "c"⟩, some "u3"⟩], none⟩
    (by decide) (by decide)
  exact ⟨h.1, h.2.1⟩

/-- Counterexample to C3 as stated: for a package name with two `://`
separators the source keeps the suffix after the LAST occurrence
(`split('://')[-1]`), not the suffix after the first: `"npm://a://b"`
normalizes to `"b"`, while splitting on the first occurrence would keep
`"a://b"`. -/
theorem c3_counterexample :
    (normalize_dependency ⟨some ⟨some ⟨some "npm://a://b", some "1.0"⟩⟩, none,
        none⟩).package_name = "b"
    ∧ strip_pkg_claim "npm://a://b" = "a://b"
    ∧ (normalize_dependency ⟨some ⟨some ⟨some "npm://a://b", some "1.0"⟩⟩, none,
        none⟩).package_name ≠ strip_pkg_claim "npm://a://b" := by
  refine ⟨by decide, by decide, by decide⟩

/-- Claim C3 (amended): normalization splits the extracted package name on
the LAST occurrence of `://` and keeps only the suffix (so a name of the
form `a ++ "://" ++ b` with no further separator in `b` becomes `b`, and in
particular `"npm://left-pad"` becomes `"left-pad"`), and a package name
containing no `://` passes through unchanged. -/
theorem c3_amended_last_split (a b : List Char) (hb : containsArrow b = false) :
    strip_pkg (String.mk (a ++ ':' :: '/' :: '/' :: b)) = String.mk b
    ∧ ∀ pn : String, containsArrow pn.toList = false → strip_pkg pn = pn := by
  constructor
  · have hne : String.mk (a ++ ':' :: '/' :: '/' :: b) ≠ "" := by
      intro hcontra
      have hdata : a ++ ':' :: '/' :: '/' :: b = [] := congrArg String.data hcontra
      simp at hdata
    have hemp : (String.mk (a ++ ':' :: '/' :: '/' :: b)).isEmpty = false := by
      rw [Bool.eq_false_iff]
      intro h
      exact hne ((String.isEmpty_iff _).mp h)
    have harr : containsArrow (String.mk (a ++ ':' :: '/' :: '/' :: b)).toList = true :=
      containsArrow_append a b
    have hcond : (!(String.mk (a ++ ':' :: '/' :: '/' :: b)).isEmpty &&
        containsArrow (String.mk (a ++ ':' :: '/' :: '/' :: b)).toList) = true := by
      rw [hemp, harr]
      rfl
    rw [strip_pkg, if_pos hcond]
    show String.mk ((splitOnArrow (a ++ ':' :: '/' :: '/' :: b)).getLastD []) = String.mk b
    rw [getLastD_splitOnArrow a b hb]
  · intro pn hc
    have hcond : (!pn.isEmpty && containsArrow pn.toList) = false := by
      rw [hc]
      exact Bool.and_false _
    rw [strip_pkg, if_neg (by rw [hcond]; exact Bool.false_ne_true)]

/-- Witness for C3 (amended): `"npm://left-pad"` normalizes to `"left-pad"`
and a name without `://` passes through unchanged. -/
theorem c3_amended_last_split_witness :
    strip_pkg "npm://left-pad" = "left-pad" ∧ strip_pkg "merge" = "merge" := by
  have h := c3_amended_last_split ['n', 'p', 'm'] ['l', 'e', 'f', 't', '-', 'p', 'a', 'd']
    (by decide)
  exact ⟨h.1, h.2 "merge" (by decide)⟩

/-- Counterexample to C4 as stated: the source replaces the literal `T` in
the raw date text with an underscore (`replace('T', '_')`) instead of
stripping it, so for `--date 2024-01-01T00:00:00Z` the generated base name
is `abc-123_new_dependencies_20240101_000000`, not
`abc-123_new_dependencies_20240101000000` as the claimed stripping would
produce. -/
theorem c4_counterexample :
    generate_output_filenames "abc-123" "2024-01-01T00:00:00Z" none =
      ("abc-123_new_dependencies_20240101_000000.json",
        "abc-123_new_dependencies_20240101_000000.csv")
    ∧ generate_output_filenames_claim "abc-123" "2024-01-01T00:00:00Z" none =
      ("abc-123_new_dependencies_20240101000000.json",
        "abc-123_new_dependencies_20240101000000.csv")
    ∧ generate_output_filenames "abc-123" "2024-01-01T00:00:00Z" none ≠
      generate_output_filenames_claim "abc-123" "2024-01-01T00:00:00Z" none := by
  refine ⟨by decide, by decide, by decide⟩

/-- Claim C4 (amended): the filename generator is a deterministic pure
function of (project_uuid, raw date text, optional branch): it strips
hyphens and colons from the raw user-supplied date text, replaces the
literal `T` with an underscore, truncates at the first `+` or `Z`,
replaces path separators and spaces in the branch text with underscores,
and yields `{uuid}_new_dependencies_{sanitized_date}[_{sanitized_branch}]`
with `.json` and `.csv` extensions; omitting the branch omits the branch
suffix. -/
theorem c4_amended_filenames (project_uuid date_str : String) (branch : Option String) :
    generate_output_filenames project_uuid date_str branch =
      generate_output_filenames_amended project_uuid date_str branch := by
  have hcomm : ∀ c : Char, (!((if c = 'T' then '_' else c) = ':')) = (!(c = ':')) := by
    intro c
    by_cases hc : c = 'T'
    · subst hc
      decide
    · rw [if_neg hc]
  have hdate : sanitize_date date_str = sanitize_date_amended date_str := by
    rw [sanitize_date, sanitize_date_amended]
    rw [filter_comm_map _ _ hcomm, filter_and, takeWhile_and]
  have hfun : ((fun c => if c = ' ' then '_' else c) ∘ (fun c => if c = '\\' then '_' else c)) ∘
      (fun c => if c = '/' then '_' else c) =
      fun c => if c = '/' ∨ c = '\\' ∨ c = ' ' then '_' else c := by
    funext c
    by_cases h1 : c = '/'
    · subst h1
      decide
    · by_cases h2 : c = '\\'
      · subst h2
        decide
      · by_cases h3 : c = ' '
        · subst h3
          decide
        · have hor : ¬(c = '/' ∨ c = '\\' ∨ c = ' ') := by
            intro h
            rcases h with h | h | h
            · exact h1 h
            · exact h2 h
            · exact h3 h
          simp only [Function.comp_apply, if_neg h1, if_neg h2, if_neg h3, if_neg hor]
  have hbranch : ∀ b : String, sanitize_branch b = sanitize_branch_amended b := by
    intro b
    rw [sanitize_branch, sanitize_branch_amended, List.map_map, List.map_map, hfun]
  rw [generate_output_filenames, generate_output_filenames_amended, hdate, hbranch]

/-- Counterexample to C5 as stated: `"%Y-%m-%d %H:%M:%S"` is a supported
layout (the fourth entry of `date_formats`, and `"2024-01-02 03:04:05"`
parses successfully), yet the error raised when no layout matches names
only the other three layouts — the text `YYYY-MM-DD HH:MM:SS` does not
occur in the message, so the error does not name all the supported
layouts. -/
theorem c5_counterexample :
    date_formats = [fmtDateOnly, fmtDateTime, fmtDateTimeZ, fmtDateSpace]
    ∧ parse_date "2024-01-02 03:04:05" = Except.ok ⟨2024, 1, 2, 3, 4, 5, some 0⟩
    ∧ parse_date "nope" = Except.error (parse_date_error "nope")
    ∧ listHasSub "nope".toList (parse_date_error "nope").toList = true
    ∧ listHasSub "YYYY-MM-DD".toList (parse_date_error "nope").toList = true
    ∧ listHasSub "YYYY-MM-DD HH:MM:SS".toList (parse_date_error "nope").toList = false := by
  refine ⟨rfl, by rfl, by rfl, by decide, by decide, by decide⟩

/-- Claim C5 (amended): `parse_date` attempts exactly four fixed layouts in
order (date-only; date+time; date+time+`Z`; date+space+time) and the first
successful match wins; a parse carrying no explicit offset is treated as
UTC; and if no layout matches, it fails with an error that names the
offending input and three of the four supported layouts (the
date+space+time layout is omitted from the message). -/
theorem c5_amended_parse_order :
    (∀ (s : String) (dt : Datetime), tryParse fmtDateOnly s.toList = some dt →
        parse_date s = Except.ok (pyReplaceTzUTC dt))
    ∧ (∀ (s : String) (dt : Datetime), tryParse fmtDateOnly s.toList = none →
        tryParse fmtDateTime s.toList = some dt → parse_date s = Except.ok (pyReplaceTzUTC dt))
    ∧ (∀ (s : String) (dt : Datetime), tryParse fmtDateOnly s.toList = none →
        tryParse fmtDateTime s.toList = none → tryParse fmtDateTimeZ s.toList = some dt →
        parse_date s = Except.ok (pyReplaceTzUTC dt))
    ∧ (∀ (s : String) (dt : Datetime), tryParse fmtDateOnly s.toList = none →
        tryParse fmtDateTime s.toList = none → tryParse fmtDateTimeZ s.toList = none →
        tryParse fmtDateSpace s.toList = some dt →
        parse_date s = Except.ok (pyReplaceTzUTC dt))
    ∧ (∀ s : String, tryParse fmtDateOnly s.toList = none →
        tryParse fmtDateTime s.toList = none → tryParse fmtDateTimeZ s.toList = none →
        tryParse fmtDateSpace s.toList = none →
        parse_date s = Except.error ("Unable to parse date: " ++ s ++
          ". Supported formats: YYYY-MM-DD, YYYY-MM-DDTHH:MM:SS, YYYY-MM-DDTHH:MM:SSZ"))
    ∧ (∀ (s : String) (dt : Datetime), parse_date s = Except.ok dt → dt.tz = some 0) := by
  refine ⟨?_, ?_, ?_, ?_, ?_, ?_⟩
  · intro s dt h1
    rw [parse_date_eq, date_formats, firstParse_cons, h1]
  · intro s dt h1 h2
    rw [parse_date_eq, date_formats, firstParse_cons, h1, firstParse_cons, h2]
  · intro s dt h1 h2 h3
    rw [parse_date_eq, date_formats, firstParse_cons, h1, firstParse_cons, h2,
      firstParse_cons, h3]
  · intro s dt h1 h2 h3 h4
    rw [parse_date_eq, date_formats, firstParse_cons, h1, firstParse_cons, h2,
      firstParse_cons, h3, firstParse_cons, h4]
  · intro s h1 h2 h3 h4
    rw [parse_date_eq, date_formats, firstParse_cons, h1, firstParse_cons, h2,
      firstParse_cons, h3, firstParse_cons, h4]
    rfl
  · exact parse_date_tz_utc

/-- Witness for C5 (amended): the first layout wins for `"2024-02-29"`
(a valid leap-year date), the fourth layout parses the date+space+time
text, a parse with no offset comes back as UTC, and an unparseable input
produces the exact error message. -/
theorem c5_amended_parse_order_witness :
    parse_date "2024-02-29" = Except.ok ⟨2024, 2, 29, 0, 0, 0, some 0⟩
    ∧ parse_date "2024-01-02 03:04:05" = Except.ok ⟨2024, 1, 2, 3, 4, 5, some 0⟩
    ∧ parse_date "nope" = Except.error ("Unable to parse date: nope" ++
        ". Supported formats: YYYY-MM-DD, YYYY-MM-DDTHH:MM:SS, YYYY-MM-DDTHH:MM:SSZ") := by
  obtain ⟨h1, _, _, h4, h5, _⟩ := c5_amended_parse_order
  refine ⟨?_, ?_, ?_⟩
  · exact h1 "2024-02-29" ⟨2024, 2, 29, 0, 0, 0, none⟩ (by decide)
  · exact h4 "2024-01-02 03:04:05" ⟨2024, 1, 2, 3, 4, 5, none⟩ (by decide) (by decide)
      (by decide) (by decide)
  · exact h5 "nope" (by decide) (by decide) (by decide) (by decide)

/-- Claim C6: `format_date_for_api` first converts an offset-carrying
instant to UTC and then emits the date-only literal `date(YYYY-MM-DD)` by
the UTC calendar date, truncating any time-of-day: any two aware datetimes
denoting the same instant format identically, and the concrete instant
2024-06-15T23:59:59+05:00 formats by its UTC calendar date (an instant
whose UTC conversion crosses midnight moves to the previous calendar
day). -/
theorem c6_format_date_utc_truncation :
    (∀ dt1 dt2 : Datetime, dt1.tz.isSome = true → dt2.tz.isSome = true →
        instantMinutes dt1 = instantMinutes dt2 →
        format_date_for_api dt1 = format_date_for_api dt2)
    ∧ format_date_for_api ⟨2024, 6, 15, 23, 59, 59, some 300⟩ = "date(2024-06-15)"
    ∧ format_date_for_api ⟨2024, 6, 15, 2, 0, 0, some 300⟩ = "date(2024-06-14)"
    ∧ format_date_for_api ⟨2024, 6, 15, 23, 59, 59, some 0⟩ = "date(2024-06-15)" := by
  refine ⟨?_, by decide, by decide, by decide⟩
  intro dt1 dt2 h1 h2 heq
  rw [format_date_for_api_aware dt1 h1, format_date_for_api_aware dt2 h2]
  simp only [strftimeYmd, utcOfInstant_year, utcOfInstant_month, utcOfInstant_day, heq]

/-- Witness for C6: 2024-06-15T23:59:59+05:00 and its UTC rendering
2024-06-15T18:59:59+00:00 denote the same instant and format to the same
date-only literal. -/
theorem c6_format_date_utc_truncation_witness :
    format_date_for_api ⟨2024, 6, 15, 23, 59, 59, some 300⟩ =
      format_date_for_api ⟨2024, 6, 15, 18, 59, 59, some 0⟩ :=
  c6_format_date_utc_truncation.1 ⟨2024, 6, 15, 23, 59, 59, some 300⟩
    ⟨2024, 6, 15, 18, 59, 59, some 0⟩ rfl rfl (by decide)

/-- Claim C7: any two accepted date-text layouts denoting the same calendar
moment parse to the same UTC instant: for every valid calendar moment, the
date+time, date+time+`Z`, and date+space+time renderings all parse to the
identical UTC-aware result, and the date-only rendering parses to that
day's midnight; in particular `"2024-01-01"` and `"2024-01-01T00:00:00Z"`
agree. -/
theorem c7_layouts_same_instant (y m d h mi s : Nat) (hy1 : 1 ≤ y) (hy : y ≤ 9999)
    (hm1 : 1 ≤ m) (hm2 : m ≤ 12) (hd1 : 1 ≤ d) (hd2 : d ≤ daysInMonthN y m) (hh : h ≤ 23)
    (hmi : mi ≤ 59) (hs : s ≤ 59) :
    parse_date (render_date_time y m d h mi s) = Except.ok ⟨y, m, d, h, mi, s, some 0⟩
    ∧ parse_date (render_date_time_z y m d h mi s) = Except.ok ⟨y, m, d, h, mi, s, some 0⟩
    ∧ parse_date (render_date_space y m d h mi s) = Except.ok ⟨y, m, d, h, mi, s, some 0⟩
    ∧ parse_date (render_date_only y m d) = Except.ok ⟨y, m, d, 0, 0, 0, some 0⟩ :=
  ⟨parse_date_render_date_time y m d h mi s hy1 hy hm1 hm2 hd1 hd2 hh hmi hs,
    parse_date_render_date_time_z y m d h mi s hy1 hy hm1 hm2 hd1 hd2 hh hmi hs,
    parse_date_render_date_space y m d h mi s hy1 hy hm1 hm2 hd1 hd2 hh hmi hs,
    parse_date_render_date_only y m d hy1 hy hm1 hm2 hd1 hd2⟩

/-- Witness for C7: `"2024-01-01"` and `"2024-01-01T00:00:00Z"` both parse
to midnight 2024-01-01 UTC. -/
theorem c7_layouts_same_instant_witness :
    parse_date "2024-01-01" = Except.ok ⟨2024, 1, 1, 0, 0, 0, some 0⟩
    ∧ parse_date "2024-01-01T00:00:00Z" = Except.ok ⟨2024, 1, 1, 0, 0, 0, some 0⟩
    ∧ parse_date "2024-01-01" = parse_date "2024-01-01T00:00:00Z" := by
  have h := c7_layouts_same_instant 2024 1 1 0 0 0 (by decide) (by decide) (by decide)
    (by decide) (by decide) (by decide) (by decide) (by decide) (by decide)
  exact ⟨h.2.2.2, h.2.1, h.2.2.2.trans h.2.1.symm⟩

/-- Claim C8: normalization copies `meta.create_time` verbatim as a string
into `created_date` (no reparsing or reformatting), and a missing nested
field among package_name, resolved_version, create_time and meta.name
defaults to the empty string rather than failing the record. -/
theorem c8_create_time_verbatim_defaults :
    (∀ (sp : Option SpecData) (u : Option String) (nm : Option String) (s : String),
        (normalize_dependency ⟨sp, some ⟨some s, nm⟩, u⟩).created_date = s)
    ∧ (normalize_dependency ⟨none, none, none⟩).package_name = ""
    ∧ (normalize_dependency ⟨none, none, none⟩).resolved_version = ""
    ∧ (normalize_dependency ⟨none, none, none⟩).created_date = ""
    ∧ (normalize_dependency ⟨none, none, none⟩).name = ""
    ∧ (normalize_dependency ⟨some ⟨some ⟨none, none⟩⟩, some ⟨none, none⟩,
        some "u"⟩).package_name = ""
    ∧ (normalize_dependency ⟨some ⟨some ⟨none, none⟩⟩, some ⟨none, none⟩,
        some "u"⟩).resolved_version = ""
    ∧ (normalize_dependency ⟨some ⟨some ⟨none, none⟩⟩, some ⟨none, none⟩,
        some "u"⟩).created_date = ""
    ∧ (normalize_dependency ⟨some ⟨some ⟨none, none⟩⟩, some ⟨none, none⟩,
        some "u"⟩).name = "" := by
  refine ⟨fun sp u nm s => rfl, by decide, by decide, by decide, by decide, by decide,
    by decide, by decide, by decide⟩

/-- Claim C9 (code bug): for a raw API object lacking a top-level `uuid`
field the source stores `None` (via `obj.get('uuid')` with no default) in
the normalized record, so the record's `uuid` is not a string as the data
model declares — every other field defaults to the empty string, but
`uuid` becomes JSON `null` / an empty CSV cell. -/
theorem c9_uuid_none_on_missing :
    (normalize_dependency ⟨some ⟨some ⟨some "npm://merge", some "1.0.0"⟩⟩,
        some ⟨some "2024-05-01T00:00:00Z", some "merge"⟩, none⟩).uuid = none
    ∧ json_opt_string (normalize_dependency ⟨some ⟨some ⟨some "npm://merge", some "1.0.0"⟩⟩,
        some ⟨some "2024-05-01T00:00:00Z", some "merge"⟩, none⟩).uuid = "null" := by
  exact ⟨rfl, rfl⟩

/-- Claim C10: an empty-string branch argument behaves exactly as an absent
branch: the query filter falls back to `context.type==CONTEXT_TYPE_MAIN`
instead of an exact `context.id` match, and the generated output filenames
carry no branch suffix. -/
theorem c10_empty_branch_like_none :
    (∀ (u : String) (cutoff : Datetime),
        build_filter u cutoff (some "") = build_filter u cutoff none)
    ∧ context_part (some "") = "context.type==CONTEXT_TYPE_MAIN"
    ∧ context_part none = "context.type==CONTEXT_TYPE_MAIN"
    ∧ (∀ (u d : String),
        generate_output_filenames u d (some "") = generate_output_filenames u d none) := by
  have hf : pyTruthy (some "") = false := by decide
  have hn : pyTruthy none = false := rfl
  have hcp : context_part (some "") = "context.type==CONTEXT_TYPE_MAIN" := by
    rw [context_part, if_neg (by rw [hf]; exact Bool.false_ne_true)]
  have hcn : context_part none = "context.type==CONTEXT_TYPE_MAIN" := rfl
  refine ⟨?_, hcp, hcn, ?_⟩
  · intro u cutoff
    rw [build_filter, build_filter, hcp, hcn]
  · intro u d
    rw [generate_output_filenames, generate_output_filenames,
      if_neg (by rw [hf]; exact Bool.false_ne_true),
      if_neg (by rw [hn]; exact Bool.false_ne_true)]
